import Mathlib

/-!
Verification development for the rotation selection engine of
homescreen-hero (src/homescreen_hero/core/rotation.py, the simulation
ledger in core/service.py + core/db/simulations.py, and the
configuration schema in core/config/schema.py).

The Python code is shallowly embedded: pydantic models become
structures (pydantic `ge`-constrained integer fields become `Nat`),
Python dicts observed only through `.get` become functions into
`Option`, the injectable `random.Random` becomes an explicit RNG model
(a state type with `randint` and `sample` operations) threaded through
the computation, and code paths that raise become `Option`/error
results.
-/

namespace HomescreenHero

/-- `DateRange` from core/config/schema.py: a yearly MM-DD window. -/
structure DateRange where
  start : String
  «end» : String
deriving DecidableEq

/-- `RotationSettings` from core/config/schema.py.  `interval_hours ≥ 1`
and `max_collections ≥ 1` are pydantic `ge` constraints, encoded by `Nat`
plus hypotheses where a claim needs them. -/
structure RotationSettings where
  enabled : Bool := true
  interval_hours : Nat := 12
  max_collections : Nat := 5
  strategy : String := "random"
  allow_repeats : Bool := false
deriving DecidableEq

/-- `CollectionGroupConfig` from core/config/schema.py.  The pydantic
`ge=0` bounds on `min_picks`, `max_picks`, `min_gap_rotations` are
encoded by `Nat`; `weight ≥ 1` likewise. -/
structure CollectionGroupConfig where
  name : String
  enabled : Bool := true
  min_picks : Nat := 0
  max_picks : Nat := 1
  weight : Nat := 1
  min_gap_rotations : Nat := 0
  visibility_home : Bool := true
  visibility_shared : Bool := false
  visibility_recommended : Bool := false
  date_range : Option DateRange := none
  collections : List String
deriving DecidableEq

/-- The slice of `AppConfig` (core/config/schema.py) read by the rotation
core: the global rotation settings and the ordered group list.  The
remaining fields (plex, trakt, logging, auth) are I/O plumbing never
consulted by rotation.py. -/
structure AppConfig where
  rotation : RotationSettings
  groups : List CollectionGroupConfig
deriving DecidableEq

/-- `CollectionUsage` rows from core/db/models.py, as consumed through
`usage_map` (only `last_rotation_id` is read by the gap rule). -/
structure CollectionUsage where
  last_rotation_id : Option Int := none
  times_used : Nat := 0
deriving DecidableEq

/-- Python `datetime.date`; the rotation core only reads `month` and
`day`. -/
structure Date where
  year : Nat
  month : Nat
  day : Nat
deriving DecidableEq

/-- `GroupSelectionResult` from core/config/schema.py. -/
structure GroupSelectionResult where
  group_name : String
  active : Bool
  min_picks : Nat
  max_picks : Nat
  available_collections : List String
  chosen_collections : List String
  picked_count : Nat
  reason_skipped : Option String
deriving DecidableEq

/-- `RotationResult` from core/config/schema.py. -/
structure RotationResult where
  selected_collections : List String
  groups : List GroupSelectionResult
  max_global : Nat
  remaining_global : Nat
  today : Date
deriving DecidableEq

/-- Splits a character list at the FIRST occurrence of `sep`, mirroring
Python `value.split(sep, 1)` succeeding with exactly two parts; `none`
when `sep` does not occur (Python then raises on tuple unpacking). -/
def splitFirst (sep : Char) : List Char → Option (List Char × List Char)
  | [] => none
  | c :: cs =>
    if c = sep then some ([], cs)
    else match splitFirst sep cs with
      | some (l, r) => some (c :: l, r)
      | none => none

/-- Python `int(s)` on the digit strings appearing in MM-DD bounds:
`none` when the characters are not a nonempty digit run (Python raises
`ValueError` there). -/
def parseNat (cs : List Char) : Option Nat :=
  if cs ≠ [] ∧ cs.all (fun c => c.isDigit) then
    some (cs.foldl (fun acc c => acc * 10 + (c.toNat - 48)) 0)
  else none

/-- `_parse_month_day` from rotation.py: parse an MM-DD bound, failing
(`none`, for the Python `ValueError`) on a malformed string or an
out-of-range month/day. -/
def _parse_month_day (value : String) : Option (Nat × Nat) :=
  match splitFirst (Char.ofNat 45) value.toList with
  | none => none
  | some (monthChars, dayChars) =>
    match parseNat monthChars, parseNat dayChars with
    | some month, some day =>
      if ¬ (1 ≤ month ∧ month ≤ 12) then none
      else if ¬ (1 ≤ day ∧ day ≤ 31) then none
      else some (month, day)
    | _, _ => none

/-- Python tuple `<=` on (month, day) pairs is lexicographic. -/
def tupleLe (a b : Nat × Nat) : Bool :=
  a.1 < b.1 ∨ (a.1 = b.1 ∧ a.2 ≤ b.2)

/-- `_is_date_in_range` from rotation.py; `none` when a bound fails to
parse (the Python exception propagates). -/
def _is_date_in_range (today : Date) (dr : DateRange) : Option Bool :=
  match _parse_month_day dr.start, _parse_month_day dr.«end» with
  | some (start_m, start_d), some (end_m, end_d) =>
    let today_tuple := (today.month, today.day)
    let start_tuple := (start_m, start_d)
    let end_tuple := (end_m, end_d)
    if tupleLe start_tuple end_tuple then
      some (tupleLe start_tuple today_tuple && tupleLe today_tuple end_tuple)
    else
      some (tupleLe start_tuple today_tuple || tupleLe today_tuple end_tuple)
  | _, _ => none

/-- `_group_is_active` from rotation.py.  The disabled check precedes
any date parsing, exactly as in the source. -/
def _group_is_active (group : CollectionGroupConfig) (today : Date) :
    Option Bool :=
  if ¬ group.enabled then some false
  else match group.date_range with
    | none => some true
    | some dr => _is_date_in_range today dr

/-- `_passes_gap_rule` from rotation.py.  `usage_map.get` becomes
application of a function into `Option`; the gap is computed in `Int`
as in Python. -/
def _passes_gap_rule (collection_name : String)
    (group : CollectionGroupConfig) (max_rotation_id : Nat)
    (usage_map : String → Option CollectionUsage) : Bool :=
  if group.min_gap_rotations ≤ 0 then true
  else if max_rotation_id = 0 then true
  else match usage_map collection_name with
    | none => true
    | some usage =>
      match usage.last_rotation_id with
      | none => true
      | some last =>
        decide ((max_rotation_id : Int) - last ≥ (group.min_gap_rotations : Int))

/-- Abstract model of the injectable `random.Random`: a state type `σ`
with `randint` (inclusive integer range) and `sample` (sample without
replacement from a population), each returning the drawn value together
with the successor RNG state. -/
structure RNGModel (σ : Type) where
  randint : Nat → Nat → σ → Nat × σ
  sample : List String → Nat → σ → List String × σ

/-- The contract `random.Random` provides: `randint a b` lands in
`[a, b]` when `a ≤ b`, and `sample pop k` with `k ≤ |pop|` returns `k`
elements drawn without replacement by position — a length-`k`
subpermutation of the population (duplicate NAMES can recur when the
population itself lists them twice). -/
def RNGModel.Lawful {σ : Type} (M : RNGModel σ) : Prop :=
  (∀ a b s, a ≤ b → a ≤ (M.randint a b s).1 ∧ (M.randint a b s).1 ≤ b) ∧
  (∀ pop k s, k ≤ pop.length →
    (M.sample pop k s).1.length = k ∧ List.Subperm (M.sample pop k s).1 pop)

/-- The mutable loop state of the two rotation functions in
rotation.py: the remaining global budget, the `selected` list, the
`selected_set` (a Python set, observed only through membership, modelled
as the list of inserted names), the accumulated per-group results, and
the RNG state. -/
structure RotState (σ : Type) where
  remaining_global : Nat
  selected : List String
  selected_set : List String
  group_results : List GroupSelectionResult
  rng : σ

/-- One iteration of the group loop of `run_rotation_with_history`
(rotation.py): cross-group dedup filter, gap-rule filter, quota
computation, random pick count, sample.  Returns the successor state
paired with the break flag (`true` exactly when the Python `break` at
the bottom of the loop body fires); `none` models the date-parsing
exception propagating. -/
def histStep {σ : Type} (M : RNGModel σ) (max_rotation_id : Nat)
    (usage_map : String → Option CollectionUsage) (today : Date)
    (group : CollectionGroupConfig) (st : RotState σ) :
    Option (RotState σ × Bool) :=
  match _group_is_active group today with
  | none => none
  | some is_active =>
    let result : GroupSelectionResult :=
      { group_name := group.name, active := is_active,
        min_picks := group.min_picks, max_picks := group.max_picks,
        available_collections := group.collections,
        chosen_collections := [], picked_count := 0,
        reason_skipped := none }
    if is_active = false then
      some ({ st with group_results := st.group_results ++
          [{ result with reason_skipped := some "Group disabled or outside date_range" }] }, false)
    else if st.remaining_global ≤ 0 then
      some ({ st with group_results := st.group_results ++
          [{ result with reason_skipped := some "Global max_collections reached before this group was processed" }] }, false)
    else
      let available :=
        (group.collections.filter (fun c => decide (c ∉ st.selected_set))).filter
          (fun c => _passes_gap_rule c group max_rotation_id usage_map)
      if available = [] then
        some ({ st with group_results := st.group_results ++
            [{ result with
                available_collections := available,
                reason_skipped := some "No available collections after applying gap rule and duplicates filter" }] }, false)
      else
        let max_for_group :=
          min group.max_picks (min st.remaining_global available.length)
        if max_for_group ≤ 0 then
          some ({ st with group_results := st.group_results ++
              [{ result with
                  available_collections := available,
                  reason_skipped := some "max_picks for this group or global cap prevented any selection" }] }, false)
        else
          let min_for_group := min group.min_picks max_for_group
          let kr :=
            if min_for_group = max_for_group then (max_for_group, st.rng)
            else M.randint min_for_group max_for_group st.rng
          if kr.1 ≤ 0 then
            some ({ st with
                rng := kr.2,
                group_results := st.group_results ++
                  [{ result with
                      available_collections := available,
                      reason_skipped := some "Randomly chose to pick 0 from this group" }] }, false)
          else
            let cr := M.sample available kr.1 kr.2
            let st2 : RotState σ :=
              { remaining_global := st.remaining_global - kr.1,
                selected := st.selected ++ cr.1,
                selected_set := st.selected_set ++ cr.1,
                group_results := st.group_results ++
                  [{ result with
                      available_collections := available,
                      chosen_collections := cr.1, picked_count := kr.1,
                      reason_skipped := none }],
                rng := cr.2 }
            some (st2, decide (st2.remaining_global ≤ 0))

/-- The `for group in config.groups` loop of `run_rotation_with_history`,
iterating `histStep` and honouring its break flag. -/
def rotationLoopHist {σ : Type} (M : RNGModel σ) (max_rotation_id : Nat)
    (usage_map : String → Option CollectionUsage) (today : Date) :
    List CollectionGroupConfig → RotState σ → Option (RotState σ)
  | [], st => some st
  | group :: rest, st =>
    match histStep M max_rotation_id usage_map today group st with
    | none => none
    | some (st2, brk) =>
      if brk then some st2
      else rotationLoopHist M max_rotation_id usage_map today rest st2

/-- `run_rotation_with_history` from rotation.py, with `today` and the
RNG as explicit (injected) arguments; returns the result together with
the final RNG state, or `none` when a date window fails to parse. -/
def run_rotation_with_history {σ : Type} (M : RNGModel σ)
    (config : AppConfig) (max_rotation_id : Nat)
    (usage_map : String → Option CollectionUsage) (today : Date)
    (rng : σ) : Option (RotationResult × σ) :=
  match rotationLoopHist M max_rotation_id usage_map today config.groups
      { remaining_global := config.rotation.max_collections,
        selected := [], selected_set := [], group_results := [],
        rng := rng } with
  | none => none
  | some st =>
    some ({ selected_collections := st.selected,
            groups := st.group_results,
            max_global := config.rotation.max_collections,
            remaining_global := st.remaining_global,
            today := today }, st.rng)

/-- One iteration of the group loop of `run_rotation_dry`
(rotation.py): identical to `histStep` except that no gap-rule filter
is applied and the empty-candidates skip reason is worded
differently. -/
def dryStep {σ : Type} (M : RNGModel σ) (today : Date)
    (group : CollectionGroupConfig) (st : RotState σ) :
    Option (RotState σ × Bool) :=
  match _group_is_active group today with
  | none => none
  | some is_active =>
    let result : GroupSelectionResult :=
      { group_name := group.name, active := is_active,
        min_picks := group.min_picks, max_picks := group.max_picks,
        available_collections := group.collections,
        chosen_collections := [], picked_count := 0,
        reason_skipped := none }
    if is_active = false then
      some ({ st with group_results := st.group_results ++
          [{ result with reason_skipped := some "Group disabled or outside date_range" }] }, false)
    else if st.remaining_global ≤ 0 then
      some ({ st with group_results := st.group_results ++
          [{ result with reason_skipped := some "Global max_collections reached before this group was processed" }] }, false)
    else
      let available :=
        group.collections.filter (fun c => decide (c ∉ st.selected_set))
      if available = [] then
        some ({ st with group_results := st.group_results ++
            [{ result with
                available_collections := available,
                reason_skipped := some "No available collections (all already selected by other groups)" }] }, false)
      else
        let max_for_group :=
          min group.max_picks (min st.remaining_global available.length)
        if max_for_group ≤ 0 then
          some ({ st with group_results := st.group_results ++
              [{ result with
                  available_collections := available,
                  reason_skipped := some "max_picks for this group or global cap prevented any selection" }] }, false)
        else
          let min_for_group := min group.min_picks max_for_group
          let kr :=
            if min_for_group = max_for_group then (max_for_group, st.rng)
            else M.randint min_for_group max_for_group st.rng
          if kr.1 ≤ 0 then
            some ({ st with
                rng := kr.2,
                group_results := st.group_results ++
                  [{ result with
                      available_collections := available,
                      reason_skipped := some "Randomly chose to pick 0 from this group" }] }, false)
          else
            let cr := M.sample available kr.1 kr.2
            let st2 : RotState σ :=
              { remaining_global := st.remaining_global - kr.1,
                selected := st.selected ++ cr.1,
                selected_set := st.selected_set ++ cr.1,
                group_results := st.group_results ++
                  [{ result with
                      available_collections := available,
                      chosen_collections := cr.1, picked_count := kr.1,
                      reason_skipped := none }],
                rng := cr.2 }
            some (st2, decide (st2.remaining_global ≤ 0))

/-- The `for group in config.groups` loop of `run_rotation_dry`,
iterating `dryStep` and honouring its break flag. -/
def rotationLoopDry {σ : Type} (M : RNGModel σ) (today : Date) :
    List CollectionGroupConfig → RotState σ → Option (RotState σ)
  | [], st => some st
  | group :: rest, st =>
    match dryStep M today group st with
    | none => none
    | some (st2, brk) =>
      if brk then some st2
      else rotationLoopDry M today rest st2

/-- `run_rotation_dry` from rotation.py. -/
def run_rotation_dry {σ : Type} (M : RNGModel σ) (config : AppConfig)
    (today : Date) (rng : σ) : Option (RotationResult × σ) :=
  match rotationLoopDry M today config.groups
      { remaining_global := config.rotation.max_collections,
        selected := [], selected_set := [], group_results := [],
        rng := rng } with
  | none => none
  | some st =>
    some ({ selected_collections := st.selected,
            groups := st.group_results,
            max_global := config.rotation.max_collections,
            remaining_global := st.remaining_global,
            today := today }, st.rng)

/-- A concrete lawful RNG used to instantiate theorems on closed
inputs: `randint` answers the lower bound, `sample` takes a prefix. -/
def detRNG : RNGModel Unit where
  randint := fun a _ s => (a, s)
  sample := fun pop k s => (pop.take k, s)

/-- The `{home, shared, recommended}` visibility dict built per
collection by `build_collection_visibility_map`. -/
structure Visibility where
  home : Bool
  shared : Bool
  recommended : Bool
deriving DecidableEq

/-- Lookup in the visibility map (Python dict membership / indexing on
string keys). -/
def visLookup : List (String × Visibility) → String → Option Visibility
  | [], _ => none
  | (k, v) :: rest, name => if k = name then some v else visLookup rest name

/-- The inner loop of `build_collection_visibility_map`: walk one
group's collection names, inserting a name's triple only when the name
is not yet present (first group wins). -/
def visInsertGroup (group : CollectionGroupConfig)
    (acc : List (String × Visibility)) : List (String × Visibility) :=
  group.collections.foldl
    (fun visibility_map collection_name =>
      if visLookup visibility_map collection_name = none then
        visibility_map ++
          [(collection_name,
            { home := group.visibility_home,
              shared := group.visibility_shared,
              recommended := group.visibility_recommended })]
      else visibility_map)
    acc

/-- `build_collection_visibility_map` from rotation.py. -/
def build_collection_visibility_map (config : AppConfig) :
    List (String × Visibility) :=
  config.groups.foldl (fun visibility_map g => visInsertGroup g visibility_map) []

/-- `PendingSimulation` rows from core/db/models.py (the fields the
apply flow reads); `applied_at` timestamps are abstract `Nat` ticks. -/
structure PendingSimulation where
  selected_collections : List String
  rotation_snapshot : Option RotationResult
  applied : Bool
  applied_at : Option Nat
deriving DecidableEq

/-- The `pending_simulations` table, observed through
`db.get(PendingSimulation, id)`. -/
abbrev SimStore := Nat → Option PendingSimulation

/-- `mark_simulation_applied` from core/db/simulations.py; `now` stands
for `datetime.utcnow()`. -/
def mark_simulation_applied (store : SimStore) (sim_id : Nat)
    (now : Nat) : SimStore :=
  match store sim_id with
  | none => store
  | some sim => fun i =>
      if i = sim_id then
        some { sim with applied := true, applied_at := some now }
      else store i

/-- `apply_simulation` from core/service.py, restricted to the
simulation-ledger state machine (the Plex calls and rotation-history
recording are external collaborators).  Returns the store after the
call, together with either the rotation result the caller acts on or
the message of the raised `ValueError`. -/
def apply_simulation (store : SimStore) (simulation_id : Nat)
    (today : Date) (now : Nat) : SimStore × Except String RotationResult :=
  match store simulation_id with
  | none =>
    (store, Except.error ("Simulation " ++ toString simulation_id ++ " not found"))
  | some sim =>
    if sim.applied then
      (store, Except.error ("Simulation " ++ toString simulation_id ++ " has already been applied"))
    else
      let rotation_result :=
        match sim.rotation_snapshot with
        | some snap => snap
        | none =>
          { selected_collections := sim.selected_collections,
            groups := [],
            max_global := sim.selected_collections.length,
            remaining_global := 0,
            today := today }
      (mark_simulation_applied store simulation_id now, Except.ok rotation_result)

/-- The picked-count/quota contract of one `GroupSelectionResult`
relative to the global budget remaining when its group was processed
(without the distinctness part): either nothing was picked and a skip
reason is recorded, or the picked count lies in
`[min(min_picks, quota), quota]` with
`quota = min(max_picks, budget, |candidates|)`, the chosen list has
exactly `picked_count` entries, and every chosen name is one of the
recorded candidates. -/
def EntryBasic (budget : Nat) (e : GroupSelectionResult) : Prop :=
  (e.picked_count = 0 ∧ e.reason_skipped ≠ none) ∨
  (min e.min_picks (min e.max_picks (min budget e.available_collections.length))
      ≤ e.picked_count ∧
    e.picked_count ≤ min e.max_picks (min budget e.available_collections.length) ∧
    e.chosen_collections.length = e.picked_count ∧
    ∀ c ∈ e.chosen_collections, c ∈ e.available_collections)

/-- `EntryBasic` plus distinctness of the chosen names. -/
def EntryOK (budget : Nat) (e : GroupSelectionResult) : Prop :=
  EntryBasic budget e ∧ e.chosen_collections.Nodup

/-- Chain `EntryOK` down a result list, decreasing the budget by each
entry's picked count (the budget argument is the remaining global
budget at the start of each group's processing). -/
def GroupsOK : Nat → List GroupSelectionResult → Prop
  | _, [] => True
  | budget, e :: es => EntryOK budget e ∧ GroupsOK (budget - e.picked_count) es

/-- Chain `EntryBasic` down a result list, decreasing the budget by
each entry's picked count. -/
def GroupsBasic : Nat → List GroupSelectionResult → Prop
  | _, [] => True
  | budget, e :: es => EntryBasic budget e ∧ GroupsBasic (budget - e.picked_count) es

/-- Entries correspond positionally to the processed prefix of the
configured group list, and every name chosen in an entry passes the
gap rule of the group it was chosen from. -/
def GapChain (max_rotation_id : Nat)
    (usage_map : String → Option CollectionUsage) :
    List CollectionGroupConfig → List GroupSelectionResult → Prop
  | _, [] => True
  | [], _ :: _ => False
  | g :: gs, e :: es =>
    (∀ c ∈ e.chosen_collections,
      _passes_gap_rule c g max_rotation_id usage_map = true) ∧
    GapChain max_rotation_id usage_map gs es

/-- The only textual difference between the two rotation entry points:
the with-history loop words the empty-candidates skip reason
differently from the dry loop.  `reasonTransport` renames the dry
wording into the with-history wording and leaves every other entry
unchanged. -/
def reasonTransport (e : GroupSelectionResult) : GroupSelectionResult :=
  if e.reason_skipped =
      some "No available collections (all already selected by other groups)" then
    { e with
      reason_skipped := some "No available collections after applying gap rule and duplicates filter" }
  else e

/-- `reasonTransport` lifted to the loop state. -/
def mapTransport {σ : Type} (st : RotState σ) : RotState σ :=
  { st with group_results := st.group_results.map reasonTransport }

/-- Concrete fixtures used to instantiate the theorems on closed
inputs. -/
def umNone : String → Option CollectionUsage := fun _ => none

def d0 : Date := { year := 2026, month := 6, day := 15 }

def gA : CollectionGroupConfig :=
  { name := "A", min_picks := 1, max_picks := 1, collections := ["X", "Y"] }

def gB : CollectionGroupConfig :=
  { name := "B", collections := ["W"] }

def cfg1 : AppConfig :=
  { rotation := { max_collections := 1 }, groups := [gA, gB] }

/-- The result `run_rotation_with_history detRNG cfg1 0 umNone d0 ()`
computes to. -/
def r1 : RotationResult :=
  { selected_collections := ["X"],
    groups := [{ group_name := "A", active := true, min_picks := 1,
                 max_picks := 1, available_collections := ["X", "Y"],
                 chosen_collections := ["X"], picked_count := 1,
                 reason_skipped := none }],
    max_global := 1, remaining_global := 0, today := d0 }

def gDup : CollectionGroupConfig :=
  { name := "D", min_picks := 2, max_picks := 2, collections := ["X", "X"] }

def cfgDup : AppConfig :=
  { rotation := { max_collections := 2 }, groups := [gDup] }

/-- The result `run_rotation_dry detRNG cfgDup d0 ()` computes to: the
duplicate listing of "X" inside one group flows through the sample. -/
def rDup : RotationResult :=
  { selected_collections := ["X", "X"],
    groups := [{ group_name := "D", active := true, min_picks := 2,
                 max_picks := 2, available_collections := ["X", "X"],
                 chosen_collections := ["X", "X"], picked_count := 2,
                 reason_skipped := none }],
    max_global := 2, remaining_global := 0, today := d0 }

def gA2 : CollectionGroupConfig :=
  { name := "A", min_picks := 1, max_picks := 1, collections := ["X"] }

def gB2 : CollectionGroupConfig :=
  { name := "B", collections := ["X"] }

def cfg6 : AppConfig :=
  { rotation := { max_collections := 2 }, groups := [gA2, gB2] }

def gGap : CollectionGroupConfig :=
  { name := "G", min_gap_rotations := 3, collections := ["Z"] }

def umapZ : String → Option CollectionUsage :=
  fun n => if n = "Z" then some { last_rotation_id := some 5 } else none

/-- Spec-side lexicographic order on (month, day) pairs — the order
the spec describes in words (Python tuple comparison), stated
independently of the Bool-valued `tupleLe` of the embedding. -/
def lexLe (a b : Nat × Nat) : Prop :=
  a.1 < b.1 ∨ (a.1 = b.1 ∧ a.2 ≤ b.2)

def gXmas : CollectionGroupConfig :=
  { name := "Xmas",
    date_range := some { start := "12-20", «end» := "01-05" },
    collections := ["C"] }

def sim1 : PendingSimulation :=
  { selected_collections := ["X"], rotation_snapshot := some r1,
    applied := false, applied_at := none }

def store1 : SimStore := fun i => if i = 5 then some sim1 else none

def gVis1 : CollectionGroupConfig :=
  { name := "V1", enabled := false, visibility_home := false,
    visibility_shared := true, visibility_recommended := true,
    collections := ["C"] }

def gVis2 : CollectionGroupConfig :=
  { name := "V2", collections := ["C"] }

def cfgVis : AppConfig := { rotation := {}, groups := [gVis1, gVis2] }

theorem detRNG_lawful : detRNG.Lawful := by
  constructor
  · intro a b s h
    exact ⟨le_refl a, h⟩
  · intro pop k s h
    refine ⟨?_, List.Sublist.subperm (List.take_sublist k pop)⟩
    simp [detRNG, Nat.min_eq_left h]

theorem subperm_nodup {α : Type} {l1 l2 : List α}
    (h : List.Subperm l1 l2) (h2 : l2.Nodup) : l1.Nodup := by
  obtain ⟨l, hp, hs⟩ := h
  exact hp.nodup_iff.mp (h2.sublist hs)

theorem pick_facts {σ : Type} {M : RNGModel σ} (hM : M.Lawful)
    (av : List String) (k : Nat) (r2 : σ) (hkle : k ≤ av.length) :
    (M.sample av k r2).1.length = k ∧
      (∀ c ∈ (M.sample av k r2).1, c ∈ av) ∧
      (av.Nodup → (M.sample av k r2).1.Nodup) :=
  ⟨(hM.2 av k r2 hkle).1,
    fun _ hc => (hM.2 av k r2 hkle).2.subset hc,
    fun hnd => subperm_nodup (hM.2 av k r2 hkle).2 hnd⟩

/-- Everything the per-claim loop invariants need about one iteration
of the with-history loop. -/
theorem histStep_spec {σ : Type} {M : RNGModel σ} (hM : M.Lawful)
    {mrid : Nat} {um : String → Option CollectionUsage} {today : Date}
    {g : CollectionGroupConfig} {st st2 : RotState σ} {brk : Bool}
    (h : histStep M mrid um today g st = some (st2, brk)) :
    ∃ e : GroupSelectionResult,
      st2.group_results = st.group_results ++ [e] ∧
      st2.selected = st.selected ++ e.chosen_collections ∧
      st2.remaining_global = st.remaining_global - e.picked_count ∧
      e.picked_count ≤ st.remaining_global ∧
      e.chosen_collections.length = e.picked_count ∧
      EntryBasic st.remaining_global e ∧
      (∀ c ∈ e.chosen_collections, _passes_gap_rule c g mrid um = true) ∧
      (∀ c ∈ e.chosen_collections, c ∉ st.selected_set) ∧
      (∀ x, x ∈ st2.selected_set ↔ x ∈ st.selected_set ∨ x ∈ e.chosen_collections) ∧
      (g.collections.Nodup → e.chosen_collections.Nodup) := by
  unfold histStep at h
  split at h
  · exact absurd h (by simp)
  · dsimp only at h
    split at h
    · simp only [Option.some.injEq, Prod.mk.injEq] at h
      obtain ⟨h1, h2⟩ := h
      subst h1
      exact ⟨_, rfl, by simp, by simp, by simp, by simp,
        Or.inl ⟨rfl, by simp⟩, by simp, by simp, fun _ => by simp, by simp⟩
    · split at h
      · simp only [Option.some.injEq, Prod.mk.injEq] at h
        obtain ⟨h1, h2⟩ := h
        subst h1
        exact ⟨_, rfl, by simp, by simp, by simp, by simp,
          Or.inl ⟨rfl, by simp⟩, by simp, by simp, fun _ => by simp, by simp⟩
      · split at h
        · simp only [Option.some.injEq, Prod.mk.injEq] at h
          obtain ⟨h1, h2⟩ := h
          subst h1
          exact ⟨_, rfl, by simp, by simp, by simp, by simp,
            Or.inl ⟨rfl, by simp⟩, by simp, by simp, fun _ => by simp, by simp⟩
        · split at h
          · simp only [Option.some.injEq, Prod.mk.injEq] at h
            obtain ⟨h1, h2⟩ := h
            subst h1
            exact ⟨_, rfl, by simp, by simp, by simp, by simp,
              Or.inl ⟨rfl, by simp⟩, by simp, by simp, fun _ => by simp, by simp⟩
          · set av :=
              (g.collections.filter (fun c => decide (c ∉ st.selected_set))).filter
                (fun c => _passes_gap_rule c g mrid um) with hav_def
            set mf := min g.max_picks (min st.remaining_global av.length) with hmf_def
            set minf := min g.min_picks mf with hminf_def
            have hav_notin : ∀ c ∈ av, c ∉ st.selected_set := by
              intro c hc
              rw [hav_def] at hc
              exact of_decide_eq_true (List.mem_filter.mp (List.mem_filter.mp hc).1).2
            have hav_gap : ∀ c ∈ av, _passes_gap_rule c g mrid um = true := by
              intro c hc
              rw [hav_def] at hc
              exact (List.mem_filter.mp hc).2
            have hav_nodup : g.collections.Nodup → av.Nodup := by
              intro hnd
              rw [hav_def]
              exact (hnd.filter _).filter _
            split at h
            · rename_i hmm
              simp only [Option.some.injEq, Prod.mk.injEq] at h
              obtain ⟨h1, h2⟩ := h
              subst h1
              have hs := pick_facts hM av mf st.rng (by omega)
              refine ⟨_, rfl, rfl, rfl, by dsimp only; omega, hs.1, Or.inr ?_,
                ?_, ?_, ?_, ?_⟩
              · exact ⟨by dsimp only; omega, by dsimp only; omega, hs.1, hs.2.1⟩
              · exact fun c hc => hav_gap c (hs.2.1 c hc)
              · exact fun c hc => hav_notin c (hs.2.1 c hc)
              · intro x
                simp [List.mem_append]
              · exact fun hnd => hs.2.2 (hav_nodup hnd)
            · rename_i hmm
              have hr := hM.1 minf mf st.rng (by omega)
              split at h
              · simp only [Option.some.injEq, Prod.mk.injEq] at h
                obtain ⟨h1, h2⟩ := h
                subst h1
                exact ⟨_, rfl, by simp, by simp, by simp, by simp,
                  Or.inl ⟨rfl, by simp⟩, by simp, by simp, fun _ => by simp, by simp⟩
              · rename_i hkpos
                simp only [Option.some.injEq, Prod.mk.injEq] at h
                obtain ⟨h1, h2⟩ := h
                subst h1
                have hs := pick_facts hM av (M.randint minf mf st.rng).1
                  (M.randint minf mf st.rng).2 (by omega)
                refine ⟨_, rfl, rfl, rfl, by dsimp only; omega, hs.1, Or.inr ?_,
                  ?_, ?_, ?_, ?_⟩
                · exact ⟨by dsimp only; omega, by dsimp only; omega, hs.1, hs.2.1⟩
                · exact fun c hc => hav_gap c (hs.2.1 c hc)
                · exact fun c hc => hav_notin c (hs.2.1 c hc)
                · intro x
                  simp [List.mem_append]
                · exact fun hnd => hs.2.2 (hav_nodup hnd)

/-- Everything the per-claim loop invariants need about one iteration
of the dry loop. -/
theorem dryStep_spec {σ : Type} {M : RNGModel σ} (hM : M.Lawful)
    {today : Date} {g : CollectionGroupConfig} {st st2 : RotState σ}
    {brk : Bool} (h : dryStep M today g st = some (st2, brk)) :
    ∃ e : GroupSelectionResult,
      st2.group_results = st.group_results ++ [e] ∧
      st2.selected = st.selected ++ e.chosen_collections ∧
      st2.remaining_global = st.remaining_global - e.picked_count ∧
      e.picked_count ≤ st.remaining_global ∧
      e.chosen_collections.length = e.picked_count ∧
      EntryBasic st.remaining_global e ∧
      (∀ c ∈ e.chosen_collections, c ∉ st.selected_set) ∧
      (∀ x, x ∈ st2.selected_set ↔ x ∈ st.selected_set ∨ x ∈ e.chosen_collections) ∧
      (g.collections.Nodup → e.chosen_collections.Nodup) := by
  unfold dryStep at h
  split at h
  · exact absurd h (by simp)
  · dsimp only at h
    split at h
    · simp only [Option.some.injEq, Prod.mk.injEq] at h
      obtain ⟨h1, h2⟩ := h
      subst h1
      exact ⟨_, rfl, by simp, by simp, by simp, by simp,
        Or.inl ⟨rfl, by simp⟩, by simp, fun _ => by simp, by simp⟩
    · split at h
      · simp only [Option.some.injEq, Prod.mk.injEq] at h
        obtain ⟨h1, h2⟩ := h
        subst h1
        exact ⟨_, rfl, by simp, by simp, by simp, by simp,
          Or.inl ⟨rfl, by simp⟩, by simp, fun _ => by simp, by simp⟩
      · split at h
        · simp only [Option.some.injEq, Prod.mk.injEq] at h
          obtain ⟨h1, h2⟩ := h
          subst h1
          exact ⟨_, rfl, by simp, by simp, by simp, by simp,
            Or.inl ⟨rfl, by simp⟩, by simp, fun _ => by simp, by simp⟩
        · split at h
          · simp only [Option.some.injEq, Prod.mk.injEq] at h
            obtain ⟨h1, h2⟩ := h
            subst h1
            exact ⟨_, rfl, by simp, by simp, by simp, by simp,
              Or.inl ⟨rfl, by simp⟩, by simp, fun _ => by simp, by simp⟩
          · set av := g.collections.filter (fun c => decide (c ∉ st.selected_set)) with hav_def
            set mf := min g.max_picks (min st.remaining_global av.length) with hmf_def
            set minf := min g.min_picks mf with hminf_def
            have hav_notin : ∀ c ∈ av, c ∉ st.selected_set := by
              intro c hc
              rw [hav_def] at hc
              exact of_decide_eq_true (List.mem_filter.mp hc).2
            have hav_nodup : g.collections.Nodup → av.Nodup := by
              intro hnd
              rw [hav_def]
              exact hnd.filter _
            split at h
            · rename_i hmm
              simp only [Option.some.injEq, Prod.mk.injEq] at h
              obtain ⟨h1, h2⟩ := h
              subst h1
              have hs := pick_facts hM av mf st.rng (by omega)
              refine ⟨_, rfl, rfl, rfl, by dsimp only; omega, hs.1, Or.inr ?_,
                ?_, ?_, ?_⟩
              · exact ⟨by dsimp only; omega, by dsimp only; omega, hs.1, hs.2.1⟩
              · exact fun c hc => hav_notin c (hs.2.1 c hc)
              · intro x
                simp [List.mem_append]
              · exact fun hnd => hs.2.2 (hav_nodup hnd)
            · rename_i hmm
              have hr := hM.1 minf mf st.rng (by omega)
              split at h
              · simp only [Option.some.injEq, Prod.mk.injEq] at h
                obtain ⟨h1, h2⟩ := h
                subst h1
                exact ⟨_, rfl, by simp, by simp, by simp, by simp,
                  Or.inl ⟨rfl, by simp⟩, by simp, fun _ => by simp, by simp⟩
              · rename_i hkpos
                simp only [Option.some.injEq, Prod.mk.injEq] at h
                obtain ⟨h1, h2⟩ := h
                subst h1
                have hs := pick_facts hM av (M.randint minf mf st.rng).1
                  (M.randint minf mf st.rng).2 (by omega)
                refine ⟨_, rfl, rfl, rfl, by dsimp only; omega, hs.1, Or.inr ?_,
                  ?_, ?_, ?_⟩
                · exact ⟨by dsimp only; omega, by dsimp only; omega, hs.1, hs.2.1⟩
                · exact fun c hc => hav_notin c (hs.2.1 c hc)
                · intro x
                  simp [List.mem_append]
                · exact fun hnd => hs.2.2 (hav_nodup hnd)

/-- Loop-level invariant transfer for the with-history loop: budget
accounting, appended entries satisfying the quota contract chained on
the running budget, and the gap-rule contract positionally against the
processed groups. -/
theorem rotationLoopHist_spec {σ : Type} {M : RNGModel σ} (hM : M.Lawful)
    (mrid : Nat) (um : String → Option CollectionUsage) (today : Date) :
    ∀ (gs : List CollectionGroupConfig) (st st' : RotState σ),
      rotationLoopHist M mrid um today gs st = some st' →
      st'.selected.length + st'.remaining_global =
        st.selected.length + st.remaining_global ∧
      ∃ res, st'.group_results = st.group_results ++ res ∧
        GroupsBasic st.remaining_global res ∧
        GapChain mrid um gs res := by
  intro gs
  induction gs with
  | nil =>
    intro st st' h
    simp only [rotationLoopHist, Option.some.injEq] at h
    subst h
    exact ⟨rfl, [], by simp, trivial, trivial⟩
  | cons g gs ih =>
    intro st st' h
    rw [rotationLoopHist] at h
    cases hstep : histStep M mrid um today g st with
    | none => rw [hstep] at h; exact absurd h (by simp)
    | some pr =>
      obtain ⟨st2, brk⟩ := pr
      rw [hstep] at h
      dsimp only at h
      obtain ⟨e, hgr, hsel, hrem, hple, hlen, hbasic, hgap, hnotin, hset, hnd⟩ :=
        histStep_spec hM hstep
      have hlen2 : st2.selected.length = st.selected.length + e.picked_count := by
        rw [hsel, List.length_append, hlen]
      by_cases hb : brk = true
      · rw [hb, if_pos rfl, Option.some.injEq] at h
        subst h
        refine ⟨by omega, [e], by rw [hgr], ⟨hbasic, trivial⟩, hgap,
          by cases gs <;> trivial⟩
      · rw [if_neg hb] at h
        obtain ⟨ha, res2, hgr2, hgb2, hgc2⟩ := ih st2 st' h
        refine ⟨by omega, e :: res2, ?_, ⟨hbasic, ?_⟩, hgap, hgc2⟩
        · rw [hgr2, hgr, List.append_assoc, List.singleton_append]
        · rw [← hrem]
          exact hgb2

/-- Loop-level nodup transfer for the with-history loop. -/
theorem rotationLoopHist_nodup {σ : Type} {M : RNGModel σ} (hM : M.Lawful)
    (mrid : Nat) (um : String → Option CollectionUsage) (today : Date) :
    ∀ (gs : List CollectionGroupConfig) (st st' : RotState σ),
      rotationLoopHist M mrid um today gs st = some st' →
      (∀ g ∈ gs, g.collections.Nodup) →
      st.selected.Nodup → (∀ x ∈ st.selected, x ∈ st.selected_set) →
      (st'.selected.Nodup ∧ ∀ x ∈ st'.selected, x ∈ st'.selected_set) ∧
      (∀ e ∈ st'.group_results,
        e ∈ st.group_results ∨ e.chosen_collections.Nodup) := by
  intro gs
  induction gs with
  | nil =>
    intro st st' h hgs hnd hsync
    simp only [rotationLoopHist, Option.some.injEq] at h
    subst h
    exact ⟨⟨hnd, hsync⟩, fun e he => Or.inl he⟩
  | cons g gs ih =>
    intro st st' h hgs hnd hsync
    rw [rotationLoopHist] at h
    cases hstep : histStep M mrid um today g st with
    | none => rw [hstep] at h; exact absurd h (by simp)
    | some pr =>
      obtain ⟨st2, brk⟩ := pr
      rw [hstep] at h
      dsimp only at h
      obtain ⟨e, hgr, hsel, hrem, hple, hlen, hbasic, hgap, hnotin, hset, hend⟩ :=
        histStep_spec hM hstep
      have hchos : e.chosen_collections.Nodup := hend (hgs g (by simp))
      have hnd2 : st2.selected.Nodup := by
        rw [hsel]
        exact hnd.append hchos
          (fun x hx hx2 => hnotin x hx2 (hsync x hx))
      have hsync2 : ∀ x ∈ st2.selected, x ∈ st2.selected_set := by
        intro x hx
        rw [hsel] at hx
        rcases List.mem_append.mp hx with hx | hx
        · exact (hset x).mpr (Or.inl (hsync x hx))
        · exact (hset x).mpr (Or.inr hx)
      have hent2 : ∀ f ∈ st2.group_results,
          f ∈ st.group_results ∨ f.chosen_collections.Nodup := by
        intro f hf
        rw [hgr] at hf
        rcases List.mem_append.mp hf with hf | hf
        · exact Or.inl hf
        · rcases List.mem_singleton.mp hf with rfl
          exact Or.inr hchos
      by_cases hb : brk = true
      · rw [hb, if_pos rfl, Option.some.injEq] at h
        subst h
        exact ⟨⟨hnd2, hsync2⟩, hent2⟩
      · rw [if_neg hb] at h
        obtain ⟨hmain, hents⟩ := ih st2 st' h (fun g2 hg2 => hgs g2 (by simp [hg2]))
          hnd2 hsync2
        refine ⟨hmain, fun f hf => ?_⟩
        rcases hents f hf with hf2 | hf2
        · exact hent2 f hf2
        · exact Or.inr hf2

/-- Loop-level invariant transfer for the dry loop. -/
theorem rotationLoopDry_spec {σ : Type} {M : RNGModel σ} (hM : M.Lawful)
    (today : Date) :
    ∀ (gs : List CollectionGroupConfig) (st st' : RotState σ),
      rotationLoopDry M today gs st = some st' →
      st'.selected.length + st'.remaining_global =
        st.selected.length + st.remaining_global ∧
      ∃ res, st'.group_results = st.group_results ++ res ∧
        GroupsBasic st.remaining_global res := by
  intro gs
  induction gs with
  | nil =>
    intro st st' h
    simp only [rotationLoopDry, Option.some.injEq] at h
    subst h
    exact ⟨rfl, [], by simp, trivial⟩
  | cons g gs ih =>
    intro st st' h
    rw [rotationLoopDry] at h
    cases hstep : dryStep M today g st with
    | none => rw [hstep] at h; exact absurd h (by simp)
    | some pr =>
      obtain ⟨st2, brk⟩ := pr
      rw [hstep] at h
      dsimp only at h
      obtain ⟨e, hgr, hsel, hrem, hple, hlen, hbasic, hnotin, hset, hnd⟩ :=
        dryStep_spec hM hstep
      have hlen2 : st2.selected.length = st.selected.length + e.picked_count := by
        rw [hsel, List.length_append, hlen]
      by_cases hb : brk = true
      · rw [hb, if_pos rfl, Option.some.injEq] at h
        subst h
        exact ⟨by omega, [e], by rw [hgr], ⟨hbasic, trivial⟩⟩
      · rw [if_neg hb] at h
        obtain ⟨ha, res2, hgr2, hgb2⟩ := ih st2 st' h
        refine ⟨by omega, e :: res2, ?_, ⟨hbasic, ?_⟩⟩
        · rw [hgr2, hgr, List.append_assoc, List.singleton_append]
        · rw [← hrem]
          exact hgb2

/-- Loop-level nodup transfer for the dry loop. -/
theorem rotationLoopDry_nodup {σ : Type} {M : RNGModel σ} (hM : M.Lawful)
    (today : Date) :
    ∀ (gs : List CollectionGroupConfig) (st st' : RotState σ),
      rotationLoopDry M today gs st = some st' →
      (∀ g ∈ gs, g.collections.Nodup) →
      st.selected.Nodup → (∀ x ∈ st.selected, x ∈ st.selected_set) →
      (st'.selected.Nodup ∧ ∀ x ∈ st'.selected, x ∈ st'.selected_set) ∧
      (∀ e ∈ st'.group_results,
        e ∈ st.group_results ∨ e.chosen_collections.Nodup) := by
  intro gs
  induction gs with
  | nil =>
    intro st st' h hgs hnd hsync
    simp only [rotationLoopDry, Option.some.injEq] at h
    subst h
    exact ⟨⟨hnd, hsync⟩, fun e he => Or.inl he⟩
  | cons g gs ih =>
    intro st st' h hgs hnd hsync
    rw [rotationLoopDry] at h
    cases hstep : dryStep M today g st with
    | none => rw [hstep] at h; exact absurd h (by simp)
    | some pr =>
      obtain ⟨st2, brk⟩ := pr
      rw [hstep] at h
      dsimp only at h
      obtain ⟨e, hgr, hsel, hrem, hple, hlen, hbasic, hnotin, hset, hend⟩ :=
        dryStep_spec hM hstep
      have hchos : e.chosen_collections.Nodup := hend (hgs g (by simp))
      have hnd2 : st2.selected.Nodup := by
        rw [hsel]
        exact hnd.append hchos
          (fun x hx hx2 => hnotin x hx2 (hsync x hx))
      have hsync2 : ∀ x ∈ st2.selected, x ∈ st2.selected_set := by
        intro x hx
        rw [hsel] at hx
        rcases List.mem_append.mp hx with hx | hx
        · exact (hset x).mpr (Or.inl (hsync x hx))
        · exact (hset x).mpr (Or.inr hx)
      have hent2 : ∀ f ∈ st2.group_results,
          f ∈ st.group_results ∨ f.chosen_collections.Nodup := by
        intro f hf
        rw [hgr] at hf
        rcases List.mem_append.mp hf with hf | hf
        · exact Or.inl hf
        · rcases List.mem_singleton.mp hf with rfl
          exact Or.inr hchos
      by_cases hb : brk = true
      · rw [hb, if_pos rfl, Option.some.injEq] at h
        subst h
        exact ⟨⟨hnd2, hsync2⟩, hent2⟩
      · rw [if_neg hb] at h
        obtain ⟨hmain, hents⟩ := ih st2 st' h (fun g2 hg2 => hgs g2 (by simp [hg2]))
          hnd2 hsync2
        refine ⟨hmain, fun f hf => ?_⟩
        rcases hents f hf with hf2 | hf2
        · exact hent2 f hf2
        · exact Or.inr hf2

/-- With no recorded rotation (`max_rotation_id = 0`) the gap rule
accepts everything. -/
theorem passes_gap_rule_zero (c : String) (g : CollectionGroupConfig)
    (um : String → Option CollectionUsage) :
    _passes_gap_rule c g 0 um = true := by
  unfold _passes_gap_rule
  split
  · rfl
  · rw [if_pos rfl]

/-- One step of the with-history loop at `max_rotation_id = 0` is one
step of the dry loop, up to the reason rewording. -/
theorem histStep_zero_dryStep {σ : Type} (M : RNGModel σ)
    (um : String → Option CollectionUsage) (today : Date)
    (g : CollectionGroupConfig) (st : RotState σ) :
    histStep M 0 um today g (mapTransport st) =
      (dryStep M today g st).map (fun p => (mapTransport p.1, p.2)) := by
  have hfil : ∀ l : List String,
      l.filter (fun c => _passes_gap_rule c g 0 um) = l := by
    intro l
    exact List.filter_eq_self.mpr (fun a _ => passes_gap_rule_zero a g um)
  unfold histStep dryStep
  cases hact : _group_is_active g today with
  | none => rfl
  | some b =>
    dsimp only [mapTransport]
    rw [hfil]
    split
    · simp [reasonTransport, List.map_append]
    · split
      · simp [reasonTransport, List.map_append]
      · split
        · simp [reasonTransport, List.map_append]
        · split
          · simp [reasonTransport, List.map_append]
          · split
            · simp [reasonTransport, List.map_append]
            · split
              · simp [reasonTransport, List.map_append]
              · simp [reasonTransport, List.map_append]

/-- The with-history loop at `max_rotation_id = 0` equals the dry loop
up to the reason rewording. -/
theorem rotationLoopHist_zero {σ : Type} (M : RNGModel σ)
    (um : String → Option CollectionUsage) (today : Date) :
    ∀ (gs : List CollectionGroupConfig) (st : RotState σ),
      rotationLoopHist M 0 um today gs (mapTransport st) =
        (rotationLoopDry M today gs st).map mapTransport := by
  intro gs
  induction gs with
  | nil => intro st; rfl
  | cons g gs ih =>
    intro st
    rw [rotationLoopHist, rotationLoopDry, histStep_zero_dryStep]
    cases hstep : dryStep M today g st with
    | none => rfl
    | some pr =>
      obtain ⟨st2, brk⟩ := pr
      dsimp only [Option.map]
      by_cases hb : brk = true
      · rw [hb, if_pos rfl, if_pos rfl]
      · rw [if_neg hb, if_neg hb, ih st2]
        cases rotationLoopDry M today gs st2 <;> rfl

/-- `run_rotation_with_history` at `max_rotation_id = 0` equals
`run_rotation_dry` up to the reason rewording on the per-group
entries. -/
theorem run_rotation_zero_eq {σ : Type} (M : RNGModel σ)
    (config : AppConfig) (um : String → Option CollectionUsage)
    (today : Date) (rng : σ) :
    run_rotation_with_history M config 0 um today rng =
      (run_rotation_dry M config today rng).map
        (fun p => ({ p.1 with groups := p.1.groups.map reasonTransport }, p.2)) := by
  unfold run_rotation_with_history run_rotation_dry
  have hinit :
      ({ remaining_global := config.rotation.max_collections,
         selected := [], selected_set := [], group_results := [],
         rng := rng } : RotState σ) =
        mapTransport
          { remaining_global := config.rotation.max_collections,
            selected := [], selected_set := [], group_results := [],
            rng := rng } := rfl
  nth_rewrite 1 [hinit]
  rw [rotationLoopHist_zero]
  cases hloop : rotationLoopDry M today config.groups
      { remaining_global := config.rotation.max_collections,
        selected := [], selected_set := [], group_results := [],
        rng := rng } with
  | none => rfl
  | some st => rfl

theorem groupsBasic_nodup_ok :
    ∀ (budget : Nat) (res : List GroupSelectionResult),
      GroupsBasic budget res →
      (∀ e ∈ res, e.chosen_collections.Nodup) →
      GroupsOK budget res := by
  intro budget res
  induction res generalizing budget with
  | nil => intro _ _; trivial
  | cons e es ih =>
    intro hb hn
    exact ⟨⟨hb.1, hn e (by simp)⟩, ih _ hb.2 (fun f hf => hn f (by simp [hf]))⟩

theorem gapChain_getElem (mrid : Nat)
    (um : String → Option CollectionUsage) :
    ∀ (res : List GroupSelectionResult) (gs : List CollectionGroupConfig),
      GapChain mrid um gs res →
      ∀ (i : Nat) (e : GroupSelectionResult) (g : CollectionGroupConfig),
        res[i]? = some e → gs[i]? = some g →
        ∀ c ∈ e.chosen_collections, _passes_gap_rule c g mrid um = true := by
  intro res
  induction res with
  | nil =>
    intro gs _ i e g he
    simp at he
  | cons e0 es ih =>
    intro gs hch i e g he hg c hc
    cases gs with
    | nil => exact absurd hch (by cases hch)
    | cons g0 gs =>
      cases i with
      | zero =>
        simp only [List.getElem?_cons_zero, Option.some.injEq] at he hg
        subst he
        subst hg
        exact hch.1 c hc
      | succ n =>
        simp only [List.getElem?_cons_succ] at he hg
        exact ih gs hch.2 n e g he hg c hc

/-- Inversion of the `run_rotation_with_history` wrapper. -/
theorem run_rotation_with_history_inv {σ : Type} {M : RNGModel σ}
    {config : AppConfig} {mrid : Nat}
    {um : String → Option CollectionUsage} {today : Date} {rng : σ}
    {r : RotationResult} {rng2 : σ}
    (h : run_rotation_with_history M config mrid um today rng = some (r, rng2)) :
    ∃ st : RotState σ,
      rotationLoopHist M mrid um today config.groups
        { remaining_global := config.rotation.max_collections,
          selected := [], selected_set := [], group_results := [],
          rng := rng } = some st ∧
      r.selected_collections = st.selected ∧
      r.groups = st.group_results ∧
      r.max_global = config.rotation.max_collections ∧
      r.remaining_global = st.remaining_global ∧
      r.today = today := by
  unfold run_rotation_with_history at h
  cases hloop : rotationLoopHist M mrid um today config.groups
      { remaining_global := config.rotation.max_collections,
        selected := [], selected_set := [], group_results := [],
        rng := rng } with
  | none => rw [hloop] at h; exact absurd h (by simp)
  | some st =>
    rw [hloop] at h
    simp only [Option.some.injEq, Prod.mk.injEq] at h
    obtain ⟨h1, h2⟩ := h
    subst h1
    exact ⟨st, rfl, rfl, rfl, rfl, rfl, rfl⟩

/-- Inversion of the `run_rotation_dry` wrapper. -/
theorem run_rotation_dry_inv {σ : Type} {M : RNGModel σ}
    {config : AppConfig} {today : Date} {rng : σ}
    {r : RotationResult} {rng2 : σ}
    (h : run_rotation_dry M config today rng = some (r, rng2)) :
    ∃ st : RotState σ,
      rotationLoopDry M today config.groups
        { remaining_global := config.rotation.max_collections,
          selected := [], selected_set := [], group_results := [],
          rng := rng } = some st ∧
      r.selected_collections = st.selected ∧
      r.groups = st.group_results ∧
      r.max_global = config.rotation.max_collections ∧
      r.remaining_global = st.remaining_global ∧
      r.today = today := by
  unfold run_rotation_dry at h
  cases hloop : rotationLoopDry M today config.groups
      { remaining_global := config.rotation.max_collections,
        selected := [], selected_set := [], group_results := [],
        rng := rng } with
  | none => rw [hloop] at h; exact absurd h (by simp)
  | some st =>
    rw [hloop] at h
    simp only [Option.some.injEq, Prod.mk.injEq] at h
    obtain ⟨h1, h2⟩ := h
    subst h1
    exact ⟨st, rfl, rfl, rfl, rfl, rfl, rfl⟩

/-- C1: for every configuration, history context, date, and RNG state,
the number of selected collections produced by
`run_rotation_with_history` (and by `run_rotation_dry`) never exceeds
`rotation_settings.max_collections`. -/
theorem claim_C1_global_cap {σ : Type} (M : RNGModel σ) (hM : M.Lawful)
    (config : AppConfig) (mrid : Nat)
    (um : String → Option CollectionUsage) (today : Date) (rng : σ) :
    (∀ r rng2,
      run_rotation_with_history M config mrid um today rng = some (r, rng2) →
      r.selected_collections.length ≤ config.rotation.max_collections) ∧
    (∀ r rng2,
      run_rotation_dry M config today rng = some (r, rng2) →
      r.selected_collections.length ≤ config.rotation.max_collections) := by
  constructor
  · intro r rng2 h
    obtain ⟨st, hloop, hsel, hgr, hmax, hrem, htoday⟩ :=
      run_rotation_with_history_inv h
    have hb := (rotationLoopHist_spec hM mrid um today config.groups _ st hloop).1
    simp only [List.length_nil] at hb
    rw [hsel]
    omega
  · intro r rng2 h
    obtain ⟨st, hloop, hsel, hgr, hmax, hrem, htoday⟩ := run_rotation_dry_inv h
    have hb := (rotationLoopDry_spec hM today config.groups _ st hloop).1
    simp only [List.length_nil] at hb
    rw [hsel]
    omega

theorem claim_C1_witness :
    r1.selected_collections.length ≤ cfg1.rotation.max_collections :=
  (claim_C1_global_cap detRNG detRNG_lawful cfg1 0 umNone d0 ()).1 r1 ()
    (by decide)

/-- C2 counterexample: with a group whose `collections` list contains
the same name twice, the selected list repeats a name — the claim's
universal statement fails. -/
theorem claim_C2_counterexample :
    run_rotation_dry detRNG cfgDup d0 () = some (rDup, ()) ∧
    ¬ rDup.selected_collections.Nodup :=
  ⟨by decide, by decide⟩

/-- C2 (amended): provided no group lists the same name twice inside
its own `collections`, neither rotation entry point ever repeats a
name in `selected_collections`, even when the same name is listed by
several groups. -/
theorem claim_C2_no_duplicates {σ : Type} (M : RNGModel σ) (hM : M.Lawful)
    (config : AppConfig)
    (hnd : ∀ g ∈ config.groups, g.collections.Nodup) (mrid : Nat)
    (um : String → Option CollectionUsage) (today : Date) (rng : σ) :
    (∀ r rng2,
      run_rotation_with_history M config mrid um today rng = some (r, rng2) →
      r.selected_collections.Nodup) ∧
    (∀ r rng2,
      run_rotation_dry M config today rng = some (r, rng2) →
      r.selected_collections.Nodup) := by
  constructor
  · intro r rng2 h
    obtain ⟨st, hloop, hsel, hgr, hmax, hrem, htoday⟩ :=
      run_rotation_with_history_inv h
    have hb := (rotationLoopHist_nodup hM mrid um today config.groups _ st
      hloop hnd (by simp) (by simp)).1.1
    rw [hsel]
    exact hb
  · intro r rng2 h
    obtain ⟨st, hloop, hsel, hgr, hmax, hrem, htoday⟩ := run_rotation_dry_inv h
    have hb := (rotationLoopDry_nodup hM today config.groups _ st
      hloop hnd (by simp) (by simp)).1.1
    rw [hsel]
    exact hb

theorem claim_C2_witness :
    (∀ g ∈ cfg1.groups, g.collections.Nodup) ∧ r1.selected_collections.Nodup :=
  ⟨by decide,
    (claim_C2_no_duplicates detRNG detRNG_lawful cfg1 (by decide) 0 umNone
      d0 ()).1 r1 () (by decide)⟩

/-- C3 counterexample: with a duplicated name inside one group, the
evaluated entry has `picked_count = 2` and no skip reason, but its
chosen collections are not 2 DISTINCT names — the claim's distinctness
part fails. -/
theorem claim_C3_counterexample :
    run_rotation_dry detRNG cfgDup d0 () = some (rDup, ()) ∧
    (rDup.groups.map fun e => e.picked_count) = [2] ∧
    (rDup.groups.map fun e => e.reason_skipped) = [none] ∧
    (rDup.groups.map fun e => e.chosen_collections) = [["X", "X"]] ∧
    ¬ (["X", "X"] : List String).Nodup :=
  ⟨by decide, by decide, by decide, by decide, by decide⟩

/-- C3 (amended): provided no group lists the same name twice inside
its own `collections`, every per-group entry of either entry point
either picked 0 with a skip reason, or picked a count inside
`[min(min_picks, quota), quota]` with
`quota = min(max_picks, budget at the start of the group,
|candidates after dedup and gap filtering|)`, choosing exactly that
many distinct names among the recorded candidates (`GroupsOK` chains
this along the result with the running budget). -/
theorem claim_C3_quota {σ : Type} (M : RNGModel σ) (hM : M.Lawful)
    (config : AppConfig)
    (hnd : ∀ g ∈ config.groups, g.collections.Nodup) (mrid : Nat)
    (um : String → Option CollectionUsage) (today : Date) (rng : σ) :
    (∀ r rng2,
      run_rotation_with_history M config mrid um today rng = some (r, rng2) →
      GroupsOK r.max_global r.groups) ∧
    (∀ r rng2,
      run_rotation_dry M config today rng = some (r, rng2) →
      GroupsOK r.max_global r.groups) := by
  constructor
  · intro r rng2 h
    obtain ⟨st, hloop, hsel, hgr, hmax, hrem, htoday⟩ :=
      run_rotation_with_history_inv h
    obtain ⟨-, res, hres, hbasic, -⟩ :=
      rotationLoopHist_spec hM mrid um today config.groups _ st hloop
    have hents := (rotationLoopHist_nodup hM mrid um today config.groups _ st
      hloop hnd (by simp) (by simp)).2
    rw [List.nil_append] at hres
    rw [hgr, hres, hmax]
    refine groupsBasic_nodup_ok _ _ hbasic ?_
    intro e he
    rcases hents e (by rw [hres]; exact he) with h2 | h2
    · simp at h2
    · exact h2
  · intro r rng2 h
    obtain ⟨st, hloop, hsel, hgr, hmax, hrem, htoday⟩ := run_rotation_dry_inv h
    obtain ⟨-, res, hres, hbasic⟩ :=
      rotationLoopDry_spec hM today config.groups _ st hloop
    have hents := (rotationLoopDry_nodup hM today config.groups _ st
      hloop hnd (by simp) (by simp)).2
    rw [List.nil_append] at hres
    rw [hgr, hres, hmax]
    refine groupsBasic_nodup_ok _ _ hbasic ?_
    intro e he
    rcases hents e (by rw [hres]; exact he) with h2 | h2
    · simp at h2
    · exact h2

theorem claim_C3_witness : GroupsOK r1.max_global r1.groups :=
  (claim_C3_quota detRNG detRNG_lawful cfg1 (by decide) 0 umNone d0 ()).1
    r1 () (by decide)

/-- C4: the gap-rule check returns `true` exactly under the claimed
disjunction; at `min_gap_rotations = 3`, `last_rotation_id = 5`,
`max_rotation_id = 7` it returns `false`; and in any rotation computed
with history, every name chosen from a group passes that group's gap
rule, so an ineligible name is never selected from that group. -/
theorem claim_C4_gap_rule :
    (∀ (c : String) (g : CollectionGroupConfig) (mrid : Nat)
        (um : String → Option CollectionUsage),
      _passes_gap_rule c g mrid um = true ↔
        (g.min_gap_rotations ≤ 0 ∨ mrid = 0 ∨ um c = none ∨
          (∃ u, um c = some u ∧ u.last_rotation_id = none) ∨
          (∃ u last, um c = some u ∧ u.last_rotation_id = some last ∧
            (mrid : Int) - last ≥ (g.min_gap_rotations : Int)))) ∧
    _passes_gap_rule "Z" gGap 7 umapZ = false ∧
    (∀ {σ : Type} (M : RNGModel σ), M.Lawful →
      ∀ (config : AppConfig) (mrid : Nat)
        (um : String → Option CollectionUsage) (today : Date) (rng : σ)
        (r : RotationResult) (rng2 : σ),
      run_rotation_with_history M config mrid um today rng = some (r, rng2) →
      ∀ (i : Nat) (e : GroupSelectionResult) (g : CollectionGroupConfig),
        r.groups[i]? = some e → config.groups[i]? = some g →
        ∀ c ∈ e.chosen_collections,
          _passes_gap_rule c g mrid um = true) := by
  refine ⟨?_, by decide, ?_⟩
  · intro c g mrid um
    unfold _passes_gap_rule
    split
    · rename_i h0
      exact iff_of_true rfl (Or.inl h0)
    · rename_i h0
      split
      · rename_i h1
        exact iff_of_true rfl (Or.inr (Or.inl h1))
      · rename_i h1
        cases hu : um c with
        | none =>
          exact iff_of_true rfl (Or.inr (Or.inr (Or.inl rfl)))
        | some u =>
          dsimp only
          cases hl : u.last_rotation_id with
          | none =>
            exact iff_of_true rfl
              (Or.inr (Or.inr (Or.inr (Or.inl ⟨u, rfl, hl⟩))))
          | some last =>
            constructor
            · intro hd
              refine Or.inr (Or.inr (Or.inr (Or.inr ⟨u, last, rfl, hl, ?_⟩)))
              exact of_decide_eq_true hd
            · intro hr
              rcases hr with h | h | h | h | h
              · exact absurd h h0
              · exact absurd h h1
              · cases h
              · obtain ⟨u2, hu2, hl2⟩ := h
                injection hu2 with e
                subst e
                rw [hl] at hl2
                cases hl2
              · obtain ⟨u2, l2, hu2, hl2, hge⟩ := h
                injection hu2 with e
                subst e
                rw [hl] at hl2
                injection hl2 with e2
                subst e2
                exact decide_eq_true hge
  · intro σ M hM config mrid um today rng r rng2 h i e g he hg c hc
    obtain ⟨st, hloop, hsel, hgr, hmax, hrem, htoday⟩ :=
      run_rotation_with_history_inv h
    obtain ⟨-, res, hres, -, hchain⟩ :=
      rotationLoopHist_spec hM mrid um today config.groups _ st hloop
    rw [List.nil_append] at hres
    rw [hgr, hres] at he
    exact gapChain_getElem mrid um res config.groups hchain i e g he hg c hc

theorem claim_C4_witness :
    _passes_gap_rule "X" gA 0 umNone = true ∧
    _passes_gap_rule "Z" gGap 7 umapZ = false :=
  ⟨claim_C4_gap_rule.2.2 detRNG detRNG_lawful cfg1 0 umNone d0 () r1 ()
      (by decide) 0
      { group_name := "A", active := true, min_picks := 1, max_picks := 1,
        available_collections := ["X", "Y"], chosen_collections := ["X"],
        picked_count := 1, reason_skipped := none }
      gA (by decide) (by decide) "X" (by decide),
    claim_C4_gap_rule.2.1⟩

theorem tupleLe_eq_true {a b : Nat × Nat} : tupleLe a b = true ↔ lexLe a b := by
  simp [tupleLe, lexLe]

theorem parse_month_day_valid {s : String} {m d : Nat}
    (h : _parse_month_day s = some (m, d)) :
    1 ≤ m ∧ m ≤ 12 ∧ 1 ≤ d ∧ d ≤ 31 := by
  unfold _parse_month_day at h
  split at h
  · cases h
  · split at h
    · split at h
      · cases h
      · split at h
        · cases h
        · rename_i month day hm hd
          simp only [Option.some.injEq, Prod.mk.injEq] at h
          obtain ⟨h1, h2⟩ := h
          subst h1
          subst h2
          rw [not_not] at hm hd
          exact ⟨hm.1, hm.2, hd.1, hd.2⟩
    · cases h

/-- C5: for an enabled group whose window bounds parse, the months and
days are in range, and the group is active exactly per the
lexicographic window rule — inclusive when start ≤ end, wrapping the
year boundary when start > end; a window 12-20..01-05 matches 12-25
and 01-01 but not 06-15; and a disabled group is never active
regardless of its window. -/
theorem claim_C5_date_window :
    (∀ (g : CollectionGroupConfig) (dr : DateRange) (today : Date)
        (sm sd em ed : Nat),
      g.enabled = true → g.date_range = some dr →
      _parse_month_day dr.start = some (sm, sd) →
      _parse_month_day dr.«end» = some (em, ed) →
      (1 ≤ sm ∧ sm ≤ 12 ∧ 1 ≤ sd ∧ sd ≤ 31 ∧
        1 ≤ em ∧ em ≤ 12 ∧ 1 ≤ ed ∧ ed ≤ 31) ∧
      (_group_is_active g today = some true ↔
        ((lexLe (sm, sd) (em, ed) ∧
            lexLe (sm, sd) (today.month, today.day) ∧
            lexLe (today.month, today.day) (em, ed)) ∨
          (¬ lexLe (sm, sd) (em, ed) ∧
            (lexLe (sm, sd) (today.month, today.day) ∨
              lexLe (today.month, today.day) (em, ed)))))) ∧
    (∀ (g : CollectionGroupConfig) (today : Date), g.enabled = false →
      _group_is_active g today = some false) ∧
    _group_is_active gXmas { year := 2026, month := 12, day := 25 } = some true ∧
    _group_is_active gXmas { year := 2027, month := 1, day := 1 } = some true ∧
    _group_is_active gXmas { year := 2026, month := 6, day := 15 } = some false := by
  refine ⟨?_, ?_, by decide, by decide, by decide⟩
  · intro g dr today sm sd em ed hen hdr hps hpe
    obtain ⟨hsm1, hsm2, hsd1, hsd2⟩ := parse_month_day_valid hps
    obtain ⟨hem1, hem2, hed1, hed2⟩ := parse_month_day_valid hpe
    refine ⟨⟨hsm1, hsm2, hsd1, hsd2, hem1, hem2, hed1, hed2⟩, ?_⟩
    unfold _group_is_active
    rw [hen, hdr]
    dsimp only
    rw [if_neg (by simp)]
    unfold _is_date_in_range
    rw [hps, hpe]
    dsimp only
    by_cases hc : lexLe (sm, sd) (em, ed)
    · rw [if_pos (tupleLe_eq_true.mpr hc)]
      simp only [Option.some.injEq, Bool.and_eq_true, tupleLe_eq_true]
      constructor
      · intro ⟨h1, h2⟩
        exact Or.inl ⟨hc, h1, h2⟩
      · intro hr
        rcases hr with ⟨-, h1, h2⟩ | ⟨hnc, -⟩
        · exact ⟨h1, h2⟩
        · exact absurd hc hnc
    · rw [if_neg (fun hb => hc (tupleLe_eq_true.mp hb))]
      simp only [Option.some.injEq, Bool.or_eq_true, tupleLe_eq_true]
      constructor
      · intro h1
        exact Or.inr ⟨hc, h1⟩
      · intro hr
        rcases hr with ⟨hcc, -⟩ | ⟨-, h1⟩
        · exact absurd hcc hc
        · exact h1
  · intro g today hen
    unfold _group_is_active
    rw [hen]
    rfl

theorem claim_C5_witness :
    (1 ≤ 12 ∧ 12 ≤ 12 ∧ 1 ≤ 20 ∧ 20 ≤ 31 ∧ 1 ≤ 1 ∧ 1 ≤ 12 ∧ 1 ≤ 5 ∧ 5 ≤ 31) ∧
    _group_is_active gXmas { year := 2026, month := 12, day := 25 } = some true :=
  have h := claim_C5_date_window.1 gXmas
    { start := "12-20", «end» := "01-05" }
    { year := 2026, month := 12, day := 25 } 12 20 1 5 rfl rfl
    (by decide) (by decide)
  ⟨h.1, h.2.mpr (Or.inr ⟨by simp [lexLe], Or.inl (by simp [lexLe])⟩)⟩

/-- C6 counterexample: when a group is skipped for having no remaining
candidates, the two entry points word `reason_skipped` differently, so
their outputs are not identical even at `max_rotation_id = 0`. -/
theorem claim_C6_counterexample :
    decide (run_rotation_with_history detRNG cfg6 0 umNone d0 () =
      run_rotation_dry detRNG cfg6 d0 ()) = false := by
  decide

/-- C6 (amended): at `max_rotation_id = 0`, `run_rotation_with_history`
produces exactly the `run_rotation_dry` result except that each
per-group entry skipped for lack of available candidates carries the
with-history wording of `reason_skipped` instead of the dry wording
(`reasonTransport`); all other fields, the selected list, the
remaining budget and the final RNG state coincide. -/
theorem claim_C6_dry_hist_agree {σ : Type} (M : RNGModel σ)
    (config : AppConfig) (um : String → Option CollectionUsage)
    (today : Date) (rng : σ) :
    run_rotation_with_history M config 0 um today rng =
      (run_rotation_dry M config today rng).map
        (fun p => ({ p.1 with groups := p.1.groups.map reasonTransport }, p.2)) :=
  run_rotation_zero_eq M config um today rng

/-- C7 counterexample: with group A (`min=max=1`, `["X","Y"]`), a
global cap of 1 and a second configured group B, the run stops before
evaluating B: B gets NO entry in the per-group list at all, rather
than appearing as skipped with a global-cap reason. -/
theorem claim_C7_counterexample :
    (run_rotation_with_history detRNG cfg1 0 umNone d0 ()).map
        (fun p => p.1.groups.map (fun e => e.group_name)) = some ["A"] ∧
    cfg1.groups.map (fun g => g.name) = ["A", "B"] :=
  ⟨by decide, by decide⟩

/-- C7 (amended): in the claimed scenario — first group enabled with
`min_picks = max_picks = 1`, collections `["X","Y"]`, no gap rule, no
date window, global cap 1, empty history — every run selects exactly
one of X or Y, ends with `remaining_global = 0`, and the per-group
list holds exactly one entry: any further configured group is never
evaluated and has no entry (it is not reported as skipped). -/
theorem claim_C7_scenario {σ : Type} (M : RNGModel σ) (hM : M.Lawful)
    (nm : String) (w : Nat) (vh vs vr : Bool) (en : Bool) (ih : Nat)
    (strat : String) (ar : Bool) (rest : List CollectionGroupConfig)
    (um : String → Option CollectionUsage) (today : Date) (rng : σ) :
    ∃ (r : RotationResult) (rng2 : σ),
      run_rotation_with_history M
        { rotation := { enabled := en, interval_hours := ih,
                        max_collections := 1, strategy := strat,
                        allow_repeats := ar },
          groups := { name := nm, enabled := true, min_picks := 1,
                      max_picks := 1, weight := w, min_gap_rotations := 0,
                      visibility_home := vh, visibility_shared := vs,
                      visibility_recommended := vr, date_range := none,
                      collections := ["X", "Y"] } :: rest }
        0 um today rng = some (r, rng2) ∧
      (r.selected_collections = ["X"] ∨ r.selected_collections = ["Y"]) ∧
      r.remaining_global = 0 ∧
      r.groups.length = 1 := by
  obtain ⟨hlen, hsub⟩ := hM.2 ["X", "Y"] 1 rng (by decide)
  obtain ⟨c, hc⟩ := List.length_eq_one.mp hlen
  have hcmem : c ∈ ["X", "Y"] := hsub.subset (by rw [hc]; exact List.mem_singleton_self c)
  refine ⟨_, _, rfl, ?_, rfl, rfl⟩
  show ([] ++ (M.sample ["X", "Y"] 1 rng).1 = ["X"]) ∨
    ([] ++ (M.sample ["X", "Y"] 1 rng).1 = ["Y"])
  rw [List.nil_append, hc]
  rcases List.mem_cons.mp hcmem with h | h
  · subst h
    exact Or.inl rfl
  · rcases List.mem_singleton.mp h with rfl
    exact Or.inr rfl

theorem claim_C7_witness :
    ∃ (r : RotationResult) (rng2 : Unit),
      run_rotation_with_history detRNG
        { rotation := { enabled := true, interval_hours := 12,
                        max_collections := 1, strategy := "random",
                        allow_repeats := false },
          groups := { name := "A", enabled := true, min_picks := 1,
                      max_picks := 1, weight := 1, min_gap_rotations := 0,
                      visibility_home := true, visibility_shared := false,
                      visibility_recommended := false, date_range := none,
                      collections := ["X", "Y"] } :: [gB] }
        0 umNone d0 () = some (r, rng2) ∧
      (r.selected_collections = ["X"] ∨ r.selected_collections = ["Y"]) ∧
      r.remaining_global = 0 ∧
      r.groups.length = 1 :=
  claim_C7_scenario detRNG detRNG_lawful "A" 1 true false false true 12
    "random" false [gB] umNone d0 ()

/-- C8: `apply_simulation` fails with the not-found error when the id
is unknown and with the distinct already-applied error when the stored
simulation is already applied, leaving the store untouched in both
cases; otherwise it marks exactly that simulation applied (recording
`applied_at`), acts on the STORED snapshot (or the fallback built from
the stored names) rather than recomputing, and a second apply of the
same id then fails with the already-applied error. -/
theorem claim_C8_apply_simulation (store : SimStore) (simulation_id : Nat)
    (today : Date) (now now2 : Nat) (today2 : Date) :
    (store simulation_id = none →
      apply_simulation store simulation_id today now =
        (store, Except.error
          ("Simulation " ++ toString simulation_id ++ " not found"))) ∧
    (∀ sim, store simulation_id = some sim → sim.applied = true →
      apply_simulation store simulation_id today now =
        (store, Except.error
          ("Simulation " ++ toString simulation_id ++ " has already been applied"))) ∧
    (∀ sim, store simulation_id = some sim → sim.applied = false →
      (apply_simulation store simulation_id today now).2 =
        Except.ok (match sim.rotation_snapshot with
          | some snap => snap
          | none =>
            { selected_collections := sim.selected_collections,
              groups := [],
              max_global := sim.selected_collections.length,
              remaining_global := 0,
              today := today }) ∧
      (apply_simulation store simulation_id today now).1 simulation_id =
        some { sim with applied := true, applied_at := some now } ∧
      (∀ j, j ≠ simulation_id →
        (apply_simulation store simulation_id today now).1 j = store j) ∧
      (apply_simulation (apply_simulation store simulation_id today now).1
          simulation_id today2 now2).2 =
        Except.error
          ("Simulation " ++ toString simulation_id ++ " has already been applied")) := by
  refine ⟨?_, ?_, ?_⟩
  · intro hnone
    unfold apply_simulation
    rw [hnone]
  · intro sim hsome happ
    unfold apply_simulation
    rw [hsome]
    dsimp only
    rw [happ]
    rfl
  · intro sim hsome happ
    have hstep : apply_simulation store simulation_id today now =
        (mark_simulation_applied store simulation_id now,
          Except.ok (match sim.rotation_snapshot with
            | some snap => snap
            | none =>
              { selected_collections := sim.selected_collections,
                groups := [],
                max_global := sim.selected_collections.length,
                remaining_global := 0,
                today := today })) := by
      unfold apply_simulation
      rw [hsome]
      dsimp only
      rw [happ]
      rfl
    have hmark : ∀ j, mark_simulation_applied store simulation_id now j =
        if j = simulation_id then
          some { sim with applied := true, applied_at := some now }
        else store j := by
      intro j
      unfold mark_simulation_applied
      rw [hsome]
    refine ⟨by rw [hstep], ?_, ?_, ?_⟩
    · rw [hstep]
      dsimp only
      rw [hmark simulation_id, if_pos rfl]
    · intro j hj
      rw [hstep]
      dsimp only
      rw [hmark j, if_neg hj]
    · rw [hstep]
      dsimp only
      unfold apply_simulation
      rw [hmark simulation_id, if_pos rfl]
      rfl

theorem claim_C8_witness :
    (apply_simulation store1 5 d0 3).2 = Except.ok r1 ∧
    (apply_simulation store1 5 d0 3).1 5 =
      some { sim1 with applied := true, applied_at := some 3 } ∧
    (apply_simulation (apply_simulation store1 5 d0 3).1 5 d0 4).2 =
      Except.error "Simulation 5 has already been applied" :=
  have h := (claim_C8_apply_simulation store1 5 d0 3 4 d0).2.2 sim1 rfl rfl
  ⟨h.1, h.2.1, h.2.2.2⟩

theorem visLookup_append_single :
    ∀ (acc : List (String × Visibility)) (n name : String) (t : Visibility),
      visLookup (acc ++ [(n, t)]) name =
        if visLookup acc name = none then
          (if n = name then some t else none)
        else visLookup acc name := by
  intro acc
  induction acc with
  | nil => intro n name t; simp [visLookup]
  | cons p rest ih =>
    intro n name t
    obtain ⟨k, v⟩ := p
    by_cases hk : k = name
    · simp [visLookup, hk]
    · simp only [List.cons_append, visLookup, if_neg hk]
      exact ih n name t

theorem visFold_lookup (t : Visibility) :
    ∀ (names : List String) (acc : List (String × Visibility)) (name : String),
      visLookup (names.foldl
          (fun m n => if visLookup m n = none then m ++ [(n, t)] else m) acc)
        name =
        if visLookup acc name = none ∧ name ∈ names then some t
        else visLookup acc name := by
  intro names
  induction names with
  | nil => intro acc name; simp
  | cons n ns ih =>
    intro acc name
    simp only [List.foldl_cons]
    by_cases hl : visLookup acc n = none
    · rw [if_pos hl, ih, visLookup_append_single]
      by_cases hn : n = name
      · subst hn
        simp [hl]
      · have hn2 : ¬ name = n := fun h => hn h.symm
        by_cases hLn : visLookup acc name = none
        · simp [hn, hn2, hLn, List.mem_cons]
        · simp [hn, hLn]
    · rw [if_neg hl, ih]
      by_cases hn : n = name
      · subst hn
        simp [hl]
      · have hn2 : ¬ name = n := fun h => hn h.symm
        by_cases hLn : visLookup acc name = none
        · simp [hn2, hLn, List.mem_cons]
        · simp [hLn]

theorem build_vis_lookup :
    ∀ (gs : List CollectionGroupConfig) (acc : List (String × Visibility))
        (name : String),
      visLookup (gs.foldl (fun m g => visInsertGroup g m) acc) name =
        if visLookup acc name = none then
          (gs.find? (fun g => g.collections.contains name)).map
            (fun g => { home := g.visibility_home,
                        shared := g.visibility_shared,
                        recommended := g.visibility_recommended })
        else visLookup acc name := by
  intro gs
  induction gs with
  | nil =>
    intro acc name
    by_cases h : visLookup acc name = none <;> simp [h]
  | cons g gs ih =>
    intro acc name
    simp only [List.foldl_cons]
    rw [ih]
    unfold visInsertGroup
    rw [visFold_lookup]
    by_cases hmem : name ∈ g.collections
    · have hcont : g.collections.contains name = true := by simp [hmem]
      have hfind : List.find?
          (fun g2 : CollectionGroupConfig => g2.collections.contains name)
          (g :: gs) = some g := List.find?_cons_of_pos gs hcont
      rw [hfind]
      by_cases hLn : visLookup acc name = none
      · simp [hLn, hmem]
      · simp [hLn, hmem]
    · have hcont : ¬ g.collections.contains name = true := by simp [hmem]
      have hfind : List.find?
          (fun g2 : CollectionGroupConfig => g2.collections.contains name)
          (g :: gs) =
          List.find?
            (fun g2 : CollectionGroupConfig => g2.collections.contains name)
            gs := List.find?_cons_of_neg gs hcont
      rw [hfind]
      by_cases hLn : visLookup acc name = none
      · simp [hLn, hmem]
      · simp [hLn, hmem]

/-- C9: the visibility map sends each name listed by at least one group
to the visibility triple of the FIRST configured group listing it
(later groups never override), and names listed by no group are absent
(`find?` over the configured order captures both). -/
theorem claim_C9_visibility_first_wins (config : AppConfig) (name : String) :
    visLookup (build_collection_visibility_map config) name =
      (config.groups.find? (fun g => g.collections.contains name)).map
        (fun g => { home := g.visibility_home,
                    shared := g.visibility_shared,
                    recommended := g.visibility_recommended }) := by
  unfold build_collection_visibility_map
  rw [build_vis_lookup]
  rfl

/-- C10: `build_collection_visibility_map` never reads `enabled` or
`date_range` — replacing them arbitrarily in every group leaves the map
unchanged — and with a disabled first group and an enabled second group
both listing "C", the disabled group's triple is the one recorded. -/
theorem claim_C10_visibility_ignores_enabled :
    (∀ (config : AppConfig) (f : CollectionGroupConfig → Bool)
        (fd : CollectionGroupConfig → Option DateRange),
      build_collection_visibility_map
        { rotation := config.rotation,
          groups := config.groups.map
            (fun g => { g with enabled := f g, date_range := fd g }) } =
        build_collection_visibility_map config) ∧
    gVis1.enabled = false ∧ gVis2.enabled = true ∧
    visLookup (build_collection_visibility_map cfgVis) "C" =
      some { home := gVis1.visibility_home, shared := gVis1.visibility_shared,
             recommended := gVis1.visibility_recommended } ∧
    ({ home := gVis1.visibility_home, shared := gVis1.visibility_shared,
       recommended := gVis1.visibility_recommended } : Visibility) ≠
      { home := gVis2.visibility_home, shared := gVis2.visibility_shared,
        recommended := gVis2.visibility_recommended } := by
  refine ⟨?_, by decide, by decide, by decide, by decide⟩
  intro config f fd
  unfold build_collection_visibility_map
  dsimp only
  rw [List.foldl_map]
  rfl

end HomescreenHero

